import Mathlib

/-!
Verification of the Mailman CGI wrapper (`src/cgi-wrapper.c`).

The C program is a small privilege-mediating launcher.  We embed it
shallowly: the whitelist array and `check_command` are transcribed
directly from the source; `main` becomes a pure function from its
inputs and the (externally supplied) collaborator behaviour to the
sequence of externally visible events it performs plus its terminal
outcome.  The external collaborators (`check_caller`, `run_script`,
`fatal`, living in `common.c`, which is not part of the sources here)
are modelled from the spec's contracts for them, as is the
direct-invocation wrapper variant described by the spec.
-/

namespace Mailman

/-- The `VALID_SCRIPTS` array of `cgi-wrapper.c`, transcribed entry by
entry.  The trailing `none` is the `NULL` sentinel of the C array. -/
def VALID_SCRIPTS : List (Option String) :=
  [ some "admindb",
    some "admin",
    some "confirm",
    some "create",
    some "edithtml",
    some "listinfo",
    some "options",
    some "private",
    some "rmlist",
    some "roster",
    some "subscribe",
    none ]

/-- The eleven whitelist entries (the array without its sentinel). -/
def whitelistEntries : List String := VALID_SCRIPTS.filterMap id

/-- The loop of `check_command`: scan the array until the `NULL`
sentinel, returning 1 on an exact `strcmp` match and 0 when the
sentinel is reached.  (The `[]` case is unreachable for the real array,
which always ends in the sentinel.) -/
def checkLoop (s : String) : List (Option String) → Nat
  | [] => 0
  | none :: _ => 0
  | some t :: rest => if s = t then 1 else checkLoop s rest

/-- `check_command` from `cgi-wrapper.c`: returns 1 iff the script name
exactly equals some whitelist entry, 0 otherwise. -/
def check_command (s : String) : Nat := checkLoop s VALID_SCRIPTS

/-- A fuel-indexed transcription of the `while` loop of `check_command`,
kept faithful to the C index arithmetic: at index `i` it reads
`VALID_SCRIPTS[i]`; `some none` is the sentinel (loop exit, return 0),
`some (some t)` is a string entry (compare, else `i++`), and running
out of array (`none` from `getElem?`) or out of fuel yields `none`
(the loop did not terminate within the given budget). -/
def checkLoopFuel (s : String) (arr : List (Option String)) : Nat → Nat → Option Nat
  | 0, _ => none
  | fuel + 1, i =>
    match arr[i]? with
    | none => none
    | some none => some 0
    | some (some t) => if s = t then some 1 else checkLoopFuel s arr fuel (i + 1)

/-- `LOG_IDENT` from `cgi-wrapper.c`, as a function of the
configure-time `SCRIPT` constant. -/
def logident (scriptConst : String) : String :=
  "Mailman cgi-wrapper (" ++ scriptConst ++ ")"

/-- Externally visible events of one run of the CGI wrapper, in
program order: the caller-authorization check, a whitelist lookup,
the dispatch hand-off, and a fatal (logged, terminating) exit report. -/
inductive Event where
  | checkCaller (ident group : String)
  | checkCommand (s : String)
  | runScript (name : String) (argc : Nat) (argv : List (Option String))
      (env : List (String × String))
  | fatal (ident : String) (status : Int) (msg : String)
deriving DecidableEq, Repr

/-- Terminal result of a run: either `run_script` replaced the process
image (and the wrapper itself never exits), or the process exited with
a status and the diagnostic message that was reported. -/
inductive Outcome where
  | replaced
  | exited (status : Int) (msg : Option String)
deriving DecidableEq, Repr

/-- Behaviour of the external collaborators for one run.
`callerOk` says whether `check_caller` returns (it terminates the
process on failure); `authStatus`/`authMsg` are the status and logged
message of that failure exit.  `runResult = none` means `run_script`
replaced the process image and never returned; `some st` means it
returned status `st`, after which `strerror(errno)` reads `errnoMsg`. -/
structure Collab where
  callerOk : Bool
  authStatus : Int
  authMsg : String
  runResult : Option Int
  errnoMsg : String
deriving DecidableEq, Repr

/-- Modelled from the spec: `check_caller` (in `common.c`, not among the
sources) "consults process/OS-level caller credentials; terminates the
process with a fatal, logged outcome if the caller's effective group
does not match"; it returns silently on success and never returns on
failure.  The returned Bool records whether it returned. -/
def check_caller (ident group : String) (c : Collab) : List Event × Bool :=
  if c.callerOk then
    ([Event.checkCaller ident group], true)
  else
    ([Event.checkCaller ident group, Event.fatal ident c.authStatus c.authMsg], false)

/-- The global command-line bookkeeping set by `main` for `--test`
support (`running_as_cgi`, `main_argc`, `main_argv`). -/
structure CgiState where
  running_as_cgi : Bool
  main_argc : Nat
  main_argv : List String
deriving DecidableEq, Repr

/-- `main` of `cgi-wrapper.c` as a pure trace semantics.  Faithful to
the source: it sets the bookkeeping globals, calls
`check_caller(logident, parentgroup)`, builds
`fake_argv = {NULL, NULL, script}` ignoring `argc`/`argv`, calls
`run_script("driver", 3, fake_argv, env)`, and on return calls
`fatal(logident, status, "%s", strerror(errno))`. -/
def cgiMain (scriptConst parentgroup : String) (argc : Nat) (argv : List String)
    (env : List (String × String)) (c : Collab) :
    CgiState × List Event × Outcome :=
  let st : CgiState :=
    { running_as_cgi := true, main_argc := argc, main_argv := argv }
  let ident := logident scriptConst
  let (ev1, ok) := check_caller ident parentgroup c
  if ok then
    let fake_argv : List (Option String) := [none, none, some scriptConst]
    match c.runResult with
    | none =>
        (st, ev1 ++ [Event.runScript "driver" 3 fake_argv env], Outcome.replaced)
    | some status =>
        (st, ev1 ++ [Event.runScript "driver" 3 fake_argv env,
                     Event.fatal ident status c.errnoMsg],
         Outcome.exited status (some c.errnoMsg))
  else
    (st, ev1, Outcome.exited c.authStatus (some c.authMsg))

/-- The sequence of dispatch targets (script name, argc, argv) a trace
hands to `run_script`. -/
def dispatchTargets (tr : List Event) : List (String × Nat × List (Option String)) :=
  tr.filterMap fun e =>
    match e with
    | Event.runScript n a v _ => some (n, a, v)
    | _ => none

end Mailman

namespace Mailman.Direct

/-- Modelled from the spec: the error taxonomy of the wrapper family —
usage error, illegal command, authorization failure, dispatch failure,
plus an explicit success variant for the uniform exit funnel. -/
inductive ExitKind where
  | success
  | usageError
  | illegalCommand
  | authError
  | dispatchError
deriving DecidableEq, Repr

/-- Modelled from the spec: "distinct, stable integer codes for usage
error, illegal-command error, authorization failure, and dispatch
failure"; success exits with code 0.  The nonzero values are not fixed
by the spec; they are chosen distinct here. -/
def exitCode : ExitKind → Int
  | ExitKind.success => 0
  | ExitKind.usageError => 1
  | ExitKind.illegalCommand => 2
  | ExitKind.authError => 3
  | ExitKind.dispatchError => 4

/-- Events of a direct-mode run: whitelist validation of the requested
command, the caller-authorization check, the dispatch hand-off, and the
single uniform exit report. -/
inductive DEvent where
  | checkCommand (s : String)
  | checkCaller (ident group : String)
  | runScript (name : String) (args : List String)
  | report (kind : ExitKind) (msg : Option String)
deriving DecidableEq, Repr

/-- Terminal result of a direct-mode run. -/
inductive DOutcome where
  | replaced
  | exited (kind : ExitKind) (msg : Option String)
deriving DecidableEq, Repr

/-- The uniform exit reporter: every termination path funnels through
this single function, which emits one `report` event and exits with the
corresponding outcome. -/
def terminate (kind : ExitKind) (msg : Option String) : List DEvent × DOutcome :=
  ([DEvent.report kind msg], DOutcome.exited kind msg)

/-- Modelled from the spec: the direct-invocation wrapper variant of
this repository, whose source is not under the provided sources (only
the CGI variant is).  Per the spec: it requires at least one argument
beyond the program name, else a `UsageError` outcome with a usage
message and no dispatch; the first argument must pass the whitelist
predicate, else an `IllegalCommandError` outcome with message
"Illegal command: <cmd>" and neither caller check nor dispatch; then
the caller-authorization check runs (terminating with an
`AuthorizationError` outcome on failure); then `argv[1]` is dispatched
with `argv[2..]` forwarded; a dispatcher that returns success yields
exit code 0 with no error message, and a nonzero return is reported as
a `DispatchError` with the errno-style message. -/
def directMain (ident parentgroup : String) (args : List String) (c : Collab) :
    List DEvent × DOutcome :=
  if args.length < 2 then
    terminate ExitKind.usageError (some "Usage: wrapper command [args]")
  else
    let cmd := args.getD 1 ""
    if check_command cmd = 1 then
      if c.callerOk then
        let pre := [DEvent.checkCommand cmd, DEvent.checkCaller ident parentgroup]
        match c.runResult with
        | none => (pre ++ [DEvent.runScript cmd (args.drop 2)], DOutcome.replaced)
        | some st =>
            if st = 0 then
              let (te, o) := terminate ExitKind.success none
              (pre ++ [DEvent.runScript cmd (args.drop 2)] ++ te, o)
            else
              let (te, o) := terminate ExitKind.dispatchError (some c.errnoMsg)
              (pre ++ [DEvent.runScript cmd (args.drop 2)] ++ te, o)
      else
        let (te, o) := terminate ExitKind.authError (some c.authMsg)
        ([DEvent.checkCommand cmd] ++ [DEvent.checkCaller ident parentgroup] ++ te, o)
    else
      let (te, o) := terminate ExitKind.illegalCommand (some ("Illegal command: " ++ cmd))
      ([DEvent.checkCommand cmd] ++ te, o)

/-- The dispatch targets of a direct-mode trace. -/
def dDispatchTargets (tr : List DEvent) : List (String × List String) :=
  tr.filterMap fun e =>
    match e with
    | DEvent.runScript n a => some (n, a)
    | _ => none

end Mailman.Direct

namespace Mailman

/-! Helper lemmas shared by the claim theorems. -/

theorem whitelistEntries_eq :
    whitelistEntries = ["admindb", "admin", "confirm", "create", "edithtml",
      "listinfo", "options", "private", "rmlist", "roster", "subscribe"] := by
  rfl

theorem checkLoop_zero_or_one (s : String) :
    ∀ l, checkLoop s l = 0 ∨ checkLoop s l = 1 := by
  intro l
  induction l with
  | nil => simp [checkLoop]
  | cons hd tl ih =>
    cases hd with
    | none => simp [checkLoop]
    | some t =>
      by_cases h : s = t
      · simp [checkLoop, h]
      · simpa [checkLoop, h] using ih

theorem checkLoop_sentinel_iff (s : String) :
    ∀ ents : List String, checkLoop s (ents.map some ++ [none]) = 1 ↔ s ∈ ents := by
  intro ents
  induction ents with
  | nil => simp [checkLoop]
  | cons e rest ih =>
    by_cases h : s = e
    · simp [checkLoop, h]
    · simpa [checkLoop, h] using ih

theorem check_command_eq_one_iff (s : String) :
    check_command s = 1 ↔ s ∈ whitelistEntries := by
  rw [whitelistEntries_eq]
  have harr : VALID_SCRIPTS =
      (["admindb", "admin", "confirm", "create", "edithtml", "listinfo",
        "options", "private", "rmlist", "roster", "subscribe"] :
        List String).map some ++ [none] := rfl
  rw [check_command, harr]
  exact checkLoop_sentinel_iff s _

theorem check_command_of_not_mem {s : String} (h : s ∉ whitelistEntries) :
    check_command s = 0 := by
  rcases checkLoop_zero_or_one s VALID_SCRIPTS with h0 | h1
  · exact h0
  · exact absurd ((check_command_eq_one_iff s).mp h1) h

theorem checkLoopFuel_eq (s : String) (arr : List (Option String)) :
    ∀ (rest : List (Option String)) (i fuel : Nat),
      arr.drop i = rest → none ∈ rest → rest.length ≤ fuel →
      checkLoopFuel s arr fuel i = some (checkLoop s rest) := by
  intro rest
  induction rest with
  | nil =>
    intro i fuel _ hmem _
    simp at hmem
  | cons hd tl ih =>
    intro i fuel hdrop hmem hlen
    match fuel with
    | 0 => simp at hlen
    | fuel + 1 =>
      have hget : arr[i]? = some hd := by
        have h0 := List.getElem?_drop arr i 0
        rw [hdrop] at h0
        simpa using h0.symm
      cases hd with
      | none =>
        simp [checkLoopFuel, hget, checkLoop]
      | some t =>
        by_cases hst : s = t
        · simp [checkLoopFuel, hget, checkLoop, hst]
        · have hdrop' : arr.drop (i + 1) = tl := by
            have h1 : (arr.drop i).drop 1 = arr.drop (i + 1) := List.drop_drop 1 i arr
            rw [← h1, hdrop, List.drop_one, List.tail_cons]
          have hmem' : none ∈ tl := by
            rcases List.mem_cons.mp hmem with h | h
            · exact absurd h.symm (by simp)
            · exact h
          have hlen' : tl.length ≤ fuel := by
            simpa using Nat.le_of_succ_le_succ hlen
          simp only [checkLoopFuel, hget, hst, if_false, checkLoop]
          exact ih (i + 1) fuel hdrop' hmem' hlen'

/-- C3: for every string `s`, `check_command s` returns 1 exactly when
`s` is byte-for-byte equal to one of the whitelist entries; in
particular the near-misses "admin " (trailing blank), "Admin"
(case difference), "admin/x" (path suffix) and "" are all rejected,
while every exact entry is accepted. -/
theorem check_command_exact_membership :
    (∀ s : String, check_command s = 1 ↔ s ∈ whitelistEntries) ∧
    check_command "admin " = 0 ∧
    check_command "Admin" = 0 ∧
    check_command "admin/x" = 0 ∧
    check_command "" = 0 ∧
    (∀ s : String, s ∈ whitelistEntries → check_command s = 1) := by
  refine ⟨check_command_eq_one_iff, by decide, by decide, by decide, by decide, ?_⟩
  intro s hs
  exact (check_command_eq_one_iff s).mpr hs

/-- C3 witness: the general membership direction applied at the
concrete entry "admin". -/
theorem check_command_exact_membership_witness :
    check_command "admin" = 1 :=
  check_command_exact_membership.2.2.2.2.2 "admin" (by decide)

/-- C4: the command whitelist is exactly the eleven build-time entries
admindb, admin, confirm, create, edithtml, listinfo, options, private,
rmlist, roster, subscribe, followed by the `NULL` sentinel and nothing
else.  In the embedding, as in the C source (a `const` array), it is a
constant: no operation of the model takes it as mutable state, so it is
unchanged for the process lifetime. -/
theorem whitelist_eleven_fixed :
    whitelistEntries = ["admindb", "admin", "confirm", "create", "edithtml",
      "listinfo", "options", "private", "rmlist", "roster", "subscribe"] ∧
    whitelistEntries.length = 11 ∧
    VALID_SCRIPTS = whitelistEntries.map some ++ [none] ∧
    VALID_SCRIPTS.getLast? = some none := by
  refine ⟨rfl, rfl, rfl, rfl⟩

/-- C10: `check_command` terminates on every input string: the
fuel-indexed transcription of its `while` loop, given fuel 12 (eleven
entries plus the sentinel read), always completes with the same answer
as the loop, and that answer is either 0 or 1. -/
theorem check_command_terminates :
    ∀ s : String,
      checkLoopFuel s VALID_SCRIPTS 12 0 = some (check_command s) ∧
      (check_command s = 0 ∨ check_command s = 1) := by
  intro s
  refine ⟨?_, checkLoop_zero_or_one s VALID_SCRIPTS⟩
  exact checkLoopFuel_eq s VALID_SCRIPTS VALID_SCRIPTS 0 12 rfl (by decide) (by decide)

end Mailman

namespace Mailman

/-- Whether an event is a dispatch hand-off. -/
def isRun : Event → Bool
  | Event.runScript _ _ _ _ => true
  | _ => false

/-- Every dispatch event in the trace is preceded (at a strictly
smaller position) by the caller-authorization check. -/
def callerBeforeRun (ident group : String) (tr : List Event) : Prop :=
  ∀ (k : Nat) (e : Event), tr[k]? = some e → isRun e = true →
    ∃ j : Nat, j < k ∧ tr[j]? = some (Event.checkCaller ident group)

theorem callerBeforeRun_cons (ident group : String) (rest : List Event) :
    callerBeforeRun ident group (Event.checkCaller ident group :: rest) := by
  intro k e hk hrun
  match k with
  | 0 =>
    rw [List.getElem?_cons_zero] at hk
    cases hk
    simp [isRun] at hrun
  | k + 1 => exact ⟨0, Nat.succ_pos k, by simp⟩

theorem cgiMain_fail (sc pg : String) (argc : Nat) (argv : List String)
    (env : List (String × String)) (c : Collab) (hc : c.callerOk = false) :
    cgiMain sc pg argc argv env c =
      ({ running_as_cgi := true, main_argc := argc, main_argv := argv },
       [Event.checkCaller (logident sc) pg,
        Event.fatal (logident sc) c.authStatus c.authMsg],
       Outcome.exited c.authStatus (some c.authMsg)) := by
  simp [cgiMain, check_caller, hc]

theorem cgiMain_replaced (sc pg : String) (argc : Nat) (argv : List String)
    (env : List (String × String)) (c : Collab) (hc : c.callerOk = true)
    (hr : c.runResult = none) :
    cgiMain sc pg argc argv env c =
      ({ running_as_cgi := true, main_argc := argc, main_argv := argv },
       [Event.checkCaller (logident sc) pg,
        Event.runScript "driver" 3 [none, none, some sc] env],
       Outcome.replaced) := by
  simp [cgiMain, check_caller, hc, hr]

theorem cgiMain_returned (sc pg : String) (argc : Nat) (argv : List String)
    (env : List (String × String)) (c : Collab) (st : Int) (hc : c.callerOk = true)
    (hr : c.runResult = some st) :
    cgiMain sc pg argc argv env c =
      ({ running_as_cgi := true, main_argc := argc, main_argv := argv },
       [Event.checkCaller (logident sc) pg,
        Event.runScript "driver" 3 [none, none, some sc] env,
        Event.fatal (logident sc) st c.errnoMsg],
       Outcome.exited st (some c.errnoMsg)) := by
  simp [cgiMain, check_caller, hc, hr]

end Mailman

namespace Mailman.Direct

/-- Whether a direct-mode event is a dispatch hand-off. -/
def dIsRun : DEvent → Bool
  | DEvent.runScript _ _ => true
  | _ => false

/-- Every dispatch event in a direct-mode trace is preceded (at a
strictly smaller position) by the caller-authorization check. -/
def dCallerBeforeRun (ident group : String) (tr : List DEvent) : Prop :=
  ∀ (k : Nat) (e : DEvent), tr[k]? = some e → dIsRun e = true →
    ∃ j : Nat, j < k ∧ tr[j]? = some (DEvent.checkCaller ident group)

theorem dCallerBeforeRun_of_no_run (ident group : String) (tr : List DEvent)
    (h : ∀ e ∈ tr, dIsRun e = false) : dCallerBeforeRun ident group tr := by
  intro k e hk hrun
  have := h e (List.getElem?_mem hk)
  simp [this] at hrun

theorem dCallerBeforeRun_cons2 (ident group : String) (e0 : DEvent)
    (rest : List DEvent) (h0 : dIsRun e0 = false) :
    dCallerBeforeRun ident group (e0 :: DEvent.checkCaller ident group :: rest) := by
  intro k e hk hrun
  match k with
  | 0 =>
    rw [List.getElem?_cons_zero] at hk
    cases hk
    rw [h0] at hrun
    cases hrun
  | 1 =>
    rw [List.getElem?_cons_succ, List.getElem?_cons_zero] at hk
    cases hk
    simp [dIsRun] at hrun
  | k + 2 => exact ⟨1, by omega, by simp⟩

theorem directMain_usage (ident pg : String) (args : List String) (c : Collab)
    (h : args.length < 2) :
    directMain ident pg args c =
      ([DEvent.report ExitKind.usageError (some "Usage: wrapper command [args]")],
       DOutcome.exited ExitKind.usageError (some "Usage: wrapper command [args]")) := by
  simp [directMain, terminate, h]

theorem directMain_illegal (ident pg : String) (args : List String) (c : Collab)
    (h : ¬ args.length < 2) (hcmd : check_command (args.getD 1 "") ≠ 1) :
    directMain ident pg args c =
      ([DEvent.checkCommand (args.getD 1 ""),
        DEvent.report ExitKind.illegalCommand
          (some ("Illegal command: " ++ args.getD 1 ""))],
       DOutcome.exited ExitKind.illegalCommand
         (some ("Illegal command: " ++ args.getD 1 ""))) := by
  have hcmd' : ¬ check_command (args[1]?.getD "") = 1 := by simpa using hcmd
  simp [directMain, terminate, h, hcmd']

theorem directMain_auth (ident pg : String) (args : List String) (c : Collab)
    (h : ¬ args.length < 2) (hcmd : check_command (args.getD 1 "") = 1)
    (hca : c.callerOk = false) :
    directMain ident pg args c =
      ([DEvent.checkCommand (args.getD 1 ""),
        DEvent.checkCaller ident pg,
        DEvent.report ExitKind.authError (some c.authMsg)],
       DOutcome.exited ExitKind.authError (some c.authMsg)) := by
  have hcmd' : check_command (args[1]?.getD "") = 1 := by simpa using hcmd
  simp [directMain, terminate, h, hcmd', hca]

theorem directMain_replaced (ident pg : String) (args : List String) (c : Collab)
    (h : ¬ args.length < 2) (hcmd : check_command (args.getD 1 "") = 1)
    (hca : c.callerOk = true) (hr : c.runResult = none) :
    directMain ident pg args c =
      ([DEvent.checkCommand (args.getD 1 ""),
        DEvent.checkCaller ident pg,
        DEvent.runScript (args.getD 1 "") (args.drop 2)],
       DOutcome.replaced) := by
  have hcmd' : check_command (args[1]?.getD "") = 1 := by simpa using hcmd
  simp [directMain, terminate, h, hcmd', hca, hr]

theorem directMain_ret_ok (ident pg : String) (args : List String) (c : Collab)
    (h : ¬ args.length < 2) (hcmd : check_command (args.getD 1 "") = 1)
    (hca : c.callerOk = true) (hr : c.runResult = some 0) :
    directMain ident pg args c =
      ([DEvent.checkCommand (args.getD 1 ""),
        DEvent.checkCaller ident pg,
        DEvent.runScript (args.getD 1 "") (args.drop 2),
        DEvent.report ExitKind.success none],
       DOutcome.exited ExitKind.success none) := by
  have hcmd' : check_command (args[1]?.getD "") = 1 := by simpa using hcmd
  simp [directMain, terminate, h, hcmd', hca, hr]

theorem directMain_ret_fail (ident pg : String) (args : List String) (c : Collab)
    (st : Int) (h : ¬ args.length < 2) (hcmd : check_command (args.getD 1 "") = 1)
    (hca : c.callerOk = true) (hr : c.runResult = some st) (hst : st ≠ 0) :
    directMain ident pg args c =
      ([DEvent.checkCommand (args.getD 1 ""),
        DEvent.checkCaller ident pg,
        DEvent.runScript (args.getD 1 "") (args.drop 2),
        DEvent.report ExitKind.dispatchError (some c.errnoMsg)],
       DOutcome.exited ExitKind.dispatchError (some c.errnoMsg)) := by
  have hcmd' : check_command (args[1]?.getD "") = 1 := by simpa using hcmd
  simp [directMain, terminate, h, hcmd', hca, hr, hst]

end Mailman.Direct

namespace Mailman

/-- C1: the caller-authorization check runs unconditionally before
dispatch.  In the CGI wrapper, `check_caller(logident, parentgroup)` is
the first event of every trace (so it precedes all other checks), every
dispatch event is preceded by it, and a failing check (which terminates
the process) means no dispatch occurs.  In the direct-mode wrapper,
every dispatch event is likewise preceded by the caller check, and a
failing check prevents dispatch. -/
theorem caller_check_before_dispatch :
    (∀ sc pg argc argv env c,
        ((cgiMain sc pg argc argv env c).2.1).head? =
          some (Event.checkCaller (logident sc) pg) ∧
        callerBeforeRun (logident sc) pg ((cgiMain sc pg argc argv env c).2.1) ∧
        (c.callerOk = false →
          dispatchTargets ((cgiMain sc pg argc argv env c).2.1) = [])) ∧
    (∀ ident pg args c,
        Direct.dCallerBeforeRun ident pg (Direct.directMain ident pg args c).1 ∧
        (c.callerOk = false →
          Direct.dDispatchTargets (Direct.directMain ident pg args c).1 = [])) := by
  constructor
  · intro sc pg argc argv env c
    cases hc : c.callerOk
    · rw [cgiMain_fail sc pg argc argv env c hc]
      exact ⟨rfl, callerBeforeRun_cons _ _ _, fun _ => by simp [dispatchTargets]⟩
    · cases hr : c.runResult with
      | none =>
        rw [cgiMain_replaced sc pg argc argv env c hc hr]
        exact ⟨rfl, callerBeforeRun_cons _ _ _, fun hff => by simp [hc] at hff⟩
      | some st =>
        rw [cgiMain_returned sc pg argc argv env c st hc hr]
        exact ⟨rfl, callerBeforeRun_cons _ _ _, fun hff => by simp [hc] at hff⟩
  · intro ident pg args c
    by_cases hlen : args.length < 2
    · rw [Direct.directMain_usage ident pg args c hlen]
      refine ⟨Direct.dCallerBeforeRun_of_no_run _ _ _ ?_, fun _ => by
        simp [Direct.dDispatchTargets]⟩
      intro e he
      simp at he
      simp [he, Direct.dIsRun]
    · by_cases hcmd : check_command (args.getD 1 "") = 1
      · cases hca : c.callerOk
        · rw [Direct.directMain_auth ident pg args c hlen hcmd hca]
          refine ⟨Direct.dCallerBeforeRun_cons2 _ _ _ _ rfl, fun _ => by
            simp [Direct.dDispatchTargets]⟩
        · cases hr : c.runResult with
          | none =>
            rw [Direct.directMain_replaced ident pg args c hlen hcmd hca hr]
            exact ⟨Direct.dCallerBeforeRun_cons2 _ _ _ _ rfl,
              fun hff => by simp [hca] at hff⟩
          | some st =>
            by_cases hst : st = 0
            · subst hst
              rw [Direct.directMain_ret_ok ident pg args c hlen hcmd hca hr]
              exact ⟨Direct.dCallerBeforeRun_cons2 _ _ _ _ rfl,
                fun hff => by simp [hca] at hff⟩
            · rw [Direct.directMain_ret_fail ident pg args c st hlen hcmd hca hr hst]
              exact ⟨Direct.dCallerBeforeRun_cons2 _ _ _ _ rfl,
                fun hff => by simp [hca] at hff⟩
      · rw [Direct.directMain_illegal ident pg args c hlen hcmd]
        refine ⟨Direct.dCallerBeforeRun_of_no_run _ _ _ ?_, fun _ => by
          simp [Direct.dDispatchTargets]⟩
        intro e he
        simp at he
        rcases he with he | he <;> simp [he, Direct.dIsRun]

/-- C1 witness: with a concrete failing caller check, the CGI wrapper
performs no dispatch. -/
theorem caller_check_before_dispatch_witness :
    dispatchTargets ((cgiMain "admin" "www-data" 1 ["wrapper"] []
        ⟨false, 3, "group mismatch", none, "err"⟩).2.1) = [] :=
  (caller_check_before_dispatch.1 "admin" "www-data" 1 ["wrapper"] []
      ⟨false, 3, "group mismatch", none, "err"⟩).2.2 rfl

/-- C2: in CGI-fixed mode the dispatched command is independent of
caller-supplied argc and argv: two runs that differ only in argc/argv
produce identical dispatch-target sequences, and every target handed to
`run_script` is the fixed name "driver" with argument count 3 and the
synthetic vector whose slots 0 and 1 are null placeholders and whose
slot 2 is the compiled-in script constant. -/
theorem cgi_dispatch_independent_of_argv :
    ∀ sc pg env c argc argv argc2 argv2,
      dispatchTargets ((cgiMain sc pg argc argv env c).2.1) =
        dispatchTargets ((cgiMain sc pg argc2 argv2 env c).2.1) ∧
      ∀ t ∈ dispatchTargets ((cgiMain sc pg argc argv env c).2.1),
        t = ("driver", 3, [none, none, some sc]) := by
  intro sc pg env c argc argv argc2 argv2
  cases hc : c.callerOk
  · rw [cgiMain_fail sc pg argc argv env c hc, cgiMain_fail sc pg argc2 argv2 env c hc]
    simp [dispatchTargets]
  · cases hr : c.runResult with
    | none =>
      rw [cgiMain_replaced sc pg argc argv env c hc hr,
        cgiMain_replaced sc pg argc2 argv2 env c hc hr]
      simp [dispatchTargets]
    | some st =>
      rw [cgiMain_returned sc pg argc argv env c st hc hr,
        cgiMain_returned sc pg argc2 argv2 env c st hc hr]
      simp [dispatchTargets]

/-- C2 witness: two concrete runs differing only in argc/argv have
equal dispatch-target sequences, and the concrete target of the first
run is the fixed driver target. -/
theorem cgi_dispatch_independent_of_argv_witness :
    dispatchTargets ((cgiMain "admin" "www-data" 1 ["a"] []
        ⟨true, 3, "m", some 1, "e"⟩).2.1) =
      dispatchTargets ((cgiMain "admin" "www-data" 9 ["b", "c"] []
        ⟨true, 3, "m", some 1, "e"⟩).2.1) ∧
    (("driver", 3, ([none, none, some "admin"] : List (Option String))) :
        String × Nat × List (Option String)) =
      ("driver", 3, [none, none, some "admin"]) := by
  refine ⟨(cgi_dispatch_independent_of_argv "admin" "www-data" []
      ⟨true, 3, "m", some 1, "e"⟩ 1 ["a"] 9 ["b", "c"]).1, ?_⟩
  exact (cgi_dispatch_independent_of_argv "admin" "www-data" []
      ⟨true, 3, "m", some 1, "e"⟩ 1 ["a"] 9 ["b", "c"]).2
    ("driver", 3, [none, none, some "admin"]) (by decide)

/-- C9: on every execution path of the CGI wrapper `check_command` is
never invoked (no `checkCommand` event ever appears in a trace), every
name actually dispatched is the constant "driver", and "driver" itself
is not a member of `VALID_SCRIPTS`: `check_command "driver" = 0`. -/
theorem check_command_never_invoked :
    ∀ sc pg argc argv env c,
      (∀ s, Event.checkCommand s ∉ (cgiMain sc pg argc argv env c).2.1) ∧
      check_command "driver" = 0 ∧
      (∀ t ∈ dispatchTargets ((cgiMain sc pg argc argv env c).2.1),
        t.1 = "driver") := by
  intro sc pg argc argv env c
  cases hc : c.callerOk
  · rw [cgiMain_fail sc pg argc argv env c hc]
    exact ⟨fun s => by simp, by decide, fun t ht => by simp [dispatchTargets] at ht⟩
  · cases hr : c.runResult with
    | none =>
      rw [cgiMain_replaced sc pg argc argv env c hc hr]
      exact ⟨fun s => by simp, by decide, fun t ht => by
        simp [dispatchTargets] at ht; simp [ht]⟩
    | some st =>
      rw [cgiMain_returned sc pg argc argv env c st hc hr]
      exact ⟨fun s => by simp, by decide, fun t ht => by
        simp [dispatchTargets] at ht; simp [ht]⟩

/-- C9 witness: at a concrete input, no whitelist-lookup event occurs
in the trace, and the concrete dispatch target's name is "driver". -/
theorem check_command_never_invoked_witness :
    Event.checkCommand "admin" ∉
      ((cgiMain "admin" "www-data" 1 ["wrapper"] []
        ⟨true, 3, "m", some 1, "e"⟩).2.1) ∧
    (("driver", 3, ([none, none, some "admin"] : List (Option String))) :
        String × Nat × List (Option String)).1 = "driver" := by
  refine ⟨(check_command_never_invoked "admin" "www-data" 1 ["wrapper"] []
      ⟨true, 3, "m", some 1, "e"⟩).1 "admin", ?_⟩
  exact (check_command_never_invoked "admin" "www-data" 1 ["wrapper"] []
      ⟨true, 3, "m", some 1, "e"⟩).2.2
    ("driver", 3, [none, none, some "admin"]) (by decide)

end Mailman

namespace Mailman

/-- C5: every process exit is reported through the uniform fatal-style
termination routine.  In the CGI wrapper, every exited outcome carries
a message and the last trace event is the matching `fatal` report, and
when the dispatcher returns, its status and the errno-derived message
are the ones forwarded into that reporter.  In the direct-mode wrapper,
every exited outcome's trace ends with the uniform `report` event
carrying exactly that outcome's kind and message. -/
theorem uniform_fatal_exit :
    (∀ sc pg argc argv env c st m,
        (cgiMain sc pg argc argv env c).2.2 = Outcome.exited st m →
        ∃ mm, m = some mm ∧
          ((cgiMain sc pg argc argv env c).2.1).getLast? =
            some (Event.fatal (logident sc) st mm)) ∧
    (∀ sc pg argc argv env c st,
        c.callerOk = true → c.runResult = some st →
        (cgiMain sc pg argc argv env c).2.2 = Outcome.exited st (some c.errnoMsg) ∧
        ((cgiMain sc pg argc argv env c).2.1).getLast? =
          some (Event.fatal (logident sc) st c.errnoMsg)) ∧
    (∀ ident pg args c k m,
        (Direct.directMain ident pg args c).2 = Direct.DOutcome.exited k m →
        ((Direct.directMain ident pg args c).1).getLast? =
          some (Direct.DEvent.report k m)) := by
  refine ⟨?_, ?_, ?_⟩
  · intro sc pg argc argv env c st m hout
    cases hc : c.callerOk
    · rw [cgiMain_fail sc pg argc argv env c hc] at hout ⊢
      simp at hout
      exact ⟨c.authMsg, hout.2.symm, by simp [hout.1]⟩
    · cases hr : c.runResult with
      | none =>
        rw [cgiMain_replaced sc pg argc argv env c hc hr] at hout
        simp at hout
      | some st2 =>
        rw [cgiMain_returned sc pg argc argv env c st2 hc hr] at hout ⊢
        simp at hout
        exact ⟨c.errnoMsg, hout.2.symm, by simp [hout.1]⟩
  · intro sc pg argc argv env c st hc hr
    rw [cgiMain_returned sc pg argc argv env c st hc hr]
    exact ⟨rfl, by simp⟩
  · intro ident pg args c k m hout
    by_cases hlen : args.length < 2
    · rw [Direct.directMain_usage ident pg args c hlen] at hout ⊢
      simp at hout
      simp [hout.1, hout.2]
    · by_cases hcmd : check_command (args.getD 1 "") = 1
      · cases hca : c.callerOk
        · rw [Direct.directMain_auth ident pg args c hlen hcmd hca] at hout ⊢
          simp at hout
          simp [hout.1, hout.2]
        · cases hr : c.runResult with
          | none =>
            rw [Direct.directMain_replaced ident pg args c hlen hcmd hca hr] at hout
            simp at hout
          | some st =>
            by_cases hst : st = 0
            · subst hst
              rw [Direct.directMain_ret_ok ident pg args c hlen hcmd hca hr] at hout ⊢
              simp at hout
              simp [hout.1, hout.2]
            · rw [Direct.directMain_ret_fail ident pg args c st hlen hcmd hca hr hst]
                at hout ⊢
              simp at hout
              simp [hout.1, hout.2]
      · rw [Direct.directMain_illegal ident pg args c hlen hcmd] at hout ⊢
        simp at hout
        simp [hout.1, hout.2]

/-- C5 witness: at a concrete input where the dispatcher returns
status 5, that status and the errno-derived message are forwarded into
the final fatal report. -/
theorem uniform_fatal_exit_witness :
    (cgiMain "admin" "www-data" 1 ["wrapper"] []
        ⟨true, 3, "m", some 5, "No such file or directory"⟩).2.2 =
      Outcome.exited 5 (some "No such file or directory") ∧
    ((cgiMain "admin" "www-data" 1 ["wrapper"] []
        ⟨true, 3, "m", some 5, "No such file or directory"⟩).2.1).getLast? =
      some (Event.fatal (logident "admin") 5 "No such file or directory") :=
  uniform_fatal_exit.2.1 "admin" "www-data" 1 ["wrapper"] []
    ⟨true, 3, "m", some 5, "No such file or directory"⟩ 5 rfl rfl

/-- C6: invoking the direct-mode wrapper as ["wrapper", "admin"] under
an authorized caller, with a stub dispatcher that returns success,
yields the success outcome (exit code 0) with no error message. -/
theorem direct_admin_success :
    ∀ ident pg c, c.callerOk = true → c.runResult = some 0 →
      (Direct.directMain ident pg ["wrapper", "admin"] c).2 =
        Direct.DOutcome.exited Direct.ExitKind.success none ∧
      Direct.exitCode Direct.ExitKind.success = 0 := by
  intro ident pg c hca hr
  rw [Direct.directMain_ret_ok ident pg ["wrapper", "admin"] c (by decide)
    (by decide) hca hr]
  exact ⟨rfl, rfl⟩

/-- C6 witness: the end-to-end run at a concrete authorized collaborator
returning success. -/
theorem direct_admin_success_witness :
    (Direct.directMain "wrapper" "www-data" ["wrapper", "admin"]
        ⟨true, 3, "m", some 0, "e"⟩).2 =
      Direct.DOutcome.exited Direct.ExitKind.success none ∧
    Direct.exitCode Direct.ExitKind.success = 0 :=
  direct_admin_success "wrapper" "www-data" ⟨true, 3, "m", some 0, "e"⟩ rfl rfl

/-- C7: for every direct-mode invocation whose first argument is not in
the whitelist, the outcome is the illegal-command error with diagnostic
"Illegal command: <cmd>", and neither the caller-authorization check
nor any dispatch occurs; in particular ["wrapper", "shutdown"] yields
the message "Illegal command: shutdown". -/
theorem direct_illegal_command :
    (∀ ident pg args c, 2 ≤ args.length → args.getD 1 "" ∉ whitelistEntries →
        (Direct.directMain ident pg args c).2 =
          Direct.DOutcome.exited Direct.ExitKind.illegalCommand
            (some ("Illegal command: " ++ args.getD 1 "")) ∧
        (∀ i g, Direct.DEvent.checkCaller i g ∉ (Direct.directMain ident pg args c).1) ∧
        Direct.dDispatchTargets (Direct.directMain ident pg args c).1 = []) ∧
    (∀ ident pg c,
        (Direct.directMain ident pg ["wrapper", "shutdown"] c).2 =
          Direct.DOutcome.exited Direct.ExitKind.illegalCommand
            (some "Illegal command: shutdown")) := by
  have main1 : ∀ (ident pg : String) (args : List String) (c : Collab),
      2 ≤ args.length → args.getD 1 "" ∉ whitelistEntries →
      (Direct.directMain ident pg args c).2 =
        Direct.DOutcome.exited Direct.ExitKind.illegalCommand
          (some ("Illegal command: " ++ args.getD 1 "")) ∧
      (∀ i g, Direct.DEvent.checkCaller i g ∉ (Direct.directMain ident pg args c).1) ∧
      Direct.dDispatchTargets (Direct.directMain ident pg args c).1 = [] := by
    intro ident pg args c hlen hmem
    have hlen2 : ¬ args.length < 2 := by omega
    have hcmd : check_command (args.getD 1 "") ≠ 1 := by
      rw [check_command_of_not_mem hmem]
      decide
    rw [Direct.directMain_illegal ident pg args c hlen2 hcmd]
    refine ⟨rfl, ?_, by simp [Direct.dDispatchTargets]⟩
    intro i g
    simp
  refine ⟨main1, fun ident pg c => ?_⟩
  exact (main1 ident pg ["wrapper", "shutdown"] c (by decide) (by decide)).1

/-- C7 witness: the concrete run on ["wrapper", "shutdown"]. -/
theorem direct_illegal_command_witness :
    (Direct.directMain "wrapper" "www-data" ["wrapper", "shutdown"]
        ⟨true, 3, "m", some 0, "e"⟩).2 =
      Direct.DOutcome.exited Direct.ExitKind.illegalCommand
        (some "Illegal command: shutdown") ∧
    Direct.dDispatchTargets
      (Direct.directMain "wrapper" "www-data" ["wrapper", "shutdown"]
        ⟨true, 3, "m", some 0, "e"⟩).1 = [] := by
  have h := direct_illegal_command.1 "wrapper" "www-data" ["wrapper", "shutdown"]
    ⟨true, 3, "m", some 0, "e"⟩ (by decide) (by decide)
  exact ⟨h.1, h.2.2⟩

/-- C8: every direct-mode invocation with fewer than 2 total arguments
yields the usage-error outcome, the trace consists of nothing but the
single exit report (the process exits immediately), and no dispatch
occurs. -/
theorem direct_usage_error :
    ∀ ident pg args c, args.length < 2 →
      (Direct.directMain ident pg args c).2 =
        Direct.DOutcome.exited Direct.ExitKind.usageError
          (some "Usage: wrapper command [args]") ∧
      (Direct.directMain ident pg args c).1 =
        [Direct.DEvent.report Direct.ExitKind.usageError
          (some "Usage: wrapper command [args]")] ∧
      Direct.dDispatchTargets (Direct.directMain ident pg args c).1 = [] := by
  intro ident pg args c h
  rw [Direct.directMain_usage ident pg args c h]
  exact ⟨rfl, rfl, by simp [Direct.dDispatchTargets]⟩

/-- C8 witness: the concrete run with only the program name. -/
theorem direct_usage_error_witness :
    (Direct.directMain "wrapper" "www-data" ["wrapper"]
        ⟨true, 3, "m", some 0, "e"⟩).2 =
      Direct.DOutcome.exited Direct.ExitKind.usageError
        (some "Usage: wrapper command [args]") ∧
    Direct.dDispatchTargets
      (Direct.directMain "wrapper" "www-data" ["wrapper"]
        ⟨true, 3, "m", some 0, "e"⟩).1 = [] := by
  have h := direct_usage_error "wrapper" "www-data" ["wrapper"]
    ⟨true, 3, "m", some 0, "e"⟩ (by decide)
  exact ⟨h.1, h.2.2⟩

end Mailman
